import Mathlib

/-!
Shallow embedding of `src/main.rs` (the Suckabunch SDL2 application shell).

The program initializes SDL (five fallible steps, each `unwrap`ped), then runs
a frame loop: clear the canvas, drain pending events breaking on `Quit` or
`Escape` key-down, clear to the background color, fill a fixed red rectangle
(result discarded), present, and sleep for `1_000_000_000 / 60` nanoseconds.

The embedding models the canvas as a draw color together with a pixel
function, each loop iteration as a `runTick` over a per-tick input (the
polled events and whether the SDL rectangle-fill call succeeds), and a run
of the loop as `runLoop` over a finite schedule of tick inputs.  Every tick
additionally records the trace of canvas effects it performed, so that
claims about operations that do or do not happen (presents, fills, sleeps)
are statable.
-/

namespace Suckabunch

/-- `sdl2::pixels::Color`: red, green, blue, alpha channels. -/
structure Color where
  r : Nat
  g : Nat
  b : Nat
  a : Nat
deriving DecidableEq, Repr

/-- `Color::RGB(r, g, b)` sets the alpha channel to 255. -/
def Color.RGB (r g b : Nat) : Color := ⟨r, g, b, 255⟩

/-- `sdl2::rect::Rect`: position (i32 in the source) and size (u32). -/
structure Rect where
  x : Int
  y : Int
  w : Nat
  h : Nat
deriving DecidableEq, Repr

/-- `Rect::new(x, y, width, height)`. -/
def Rect.new (x y : Int) (w h : Nat) : Rect := ⟨x, y, w, h⟩

/-- The pixels covered by a rectangle: the half-open box
`[x, x+w) × [y, y+h)`. -/
def Rect.contains (rc : Rect) (px py : Int) : Bool :=
  decide (rc.x ≤ px) && decide (px < rc.x + rc.w) &&
  decide (rc.y ≤ py) && decide (py < rc.y + rc.h)

/-- `sdl2::keyboard::Keycode`, collapsed to the only distinction the source
makes: the `Escape` key versus any other key (kept with its code). -/
inductive Keycode where
  | Escape
  | Other (code : Nat)
deriving DecidableEq, Repr

/-- `sdl2::event::Event`, collapsed to the three cases the `match` in `main`
distinguishes: `Quit {..}`, `KeyDown { keycode, .. }`, and everything else
(which falls into the wildcard arm). -/
inductive Event where
  | Quit (timestamp : Nat)
  | KeyDown (timestamp : Nat) (keycode : Option Keycode)
  | Other
deriving DecidableEq, Repr

/-- The condition of the `match` arm that breaks the `'running` loop:
`Event::Quit {..} | Event::KeyDown { keycode: Some(Keycode::Escape), .. }`. -/
def isTerminating : Event → Bool
  | Event.Quit _ => true
  | Event.KeyDown _ (some Keycode.Escape) => true
  | _ => false

/-- The canvas: its current draw color and its pixel contents. -/
structure Canvas where
  drawColor : Color
  pixel : Int → Int → Color

/-- `canvas.clear()`: fill every pixel with the current draw color. -/
def Canvas.clear (c : Canvas) : Canvas :=
  { c with pixel := fun _ _ => c.drawColor }

/-- `canvas.set_draw_color(col)`. -/
def Canvas.setDrawColor (c : Canvas) (col : Color) : Canvas :=
  { c with drawColor := col }

/-- `canvas.fill_rect(rc)`: a fallible SDL call.  `ok` is whether the
underlying call succeeds; on success the rectangle's pixels take the current
draw color, on failure the canvas is unchanged. -/
def Canvas.fillRect (c : Canvas) (rc : Rect) (ok : Bool) : Canvas :=
  if ok then
    { c with pixel := fun px py => if rc.contains px py then c.drawColor else c.pixel px py }
  else c

/-- Background color: `Color::RGB(200, 200, 255)` (line 34). -/
def background : Color := Color.RGB 200 200 255

/-- Foreground (rectangle) color: `Color::RGB(255, 0, 0)` (line 38). -/
def foreground : Color := Color.RGB 255 0 0

/-- The fixed rectangle: `Rect::new(100, 100, 200, 150)` (line 39). -/
def fillRectangle : Rect := Rect.new 100 100 200 150

/-- The sleep duration: `Duration::new(0, 1_000_000_000u32 / 60)` (line 44),
in nanoseconds. -/
def nanosPerFrame : Nat := 1000000000 / 60

/-- The input the environment supplies to one loop iteration: the events the
event pump yields this tick, and whether the SDL `fill_rect` call succeeds. -/
structure TickInput where
  events : List Event
  fillOk : Bool
deriving DecidableEq, Repr

/-- One canvas/pacing operation performed during a tick, recorded in order. -/
inductive Effect where
  | clear (color : Color)
  | setDrawColor (color : Color)
  | fillRect (rect : Rect) (color : Color) (ok : Bool)
  | present
  | sleep (nanos : Nat)
deriving DecidableEq, Repr

/-- What one loop iteration produced: the canvas state it leaves behind,
whether it broke the loop, the events it actually examined, the frame it
presented (if any), the sleep it performed (if any), and the ordered trace
of canvas effects. -/
structure TickResult where
  canvas : Canvas
  terminated : Bool
  examined : List Event
  presented : Option (Int → Int → Color)
  sleptNs : Option Nat
  effects : List Effect

/-- The `for event in event_pump.poll_iter()` drain (lines 23-31): scan the
queued events in order; on the first `Quit` or `Escape` key-down, break out
(returning `true` and the events examined so far, that one included);
otherwise fall through the wildcard arm and continue.  Returns whether the
loop was broken and the list of events actually examined. -/
def drainEvents : List Event → Bool × List Event
  | [] => (false, [])
  | e :: es =>
    if isTerminating e then (true, [e])
    else ((drainEvents es).1, e :: (drainEvents es).2)

/-- One iteration of the `'running` loop (lines 21-45), in source order:
`canvas.clear()` (line 22); the event drain (lines 23-31); if the drain broke,
the iteration ends there (no further drawing, no present, no sleep);
otherwise set draw color to the background and `clear` (lines 34-35), set
draw color to red and `fill_rect` discarding its result (lines 38-40),
`present` (line 43) and sleep (line 44). -/
def runTick (c : Canvas) (t : TickInput) : TickResult :=
  let c1 := c.clear
  if (drainEvents t.events).1 then
    { canvas := c1
      terminated := true
      examined := (drainEvents t.events).2
      presented := none
      sleptNs := none
      effects := [Effect.clear c.drawColor] }
  else
    let c4 := ((c1.setDrawColor background).clear.setDrawColor foreground).fillRect
      fillRectangle t.fillOk
    { canvas := c4
      terminated := false
      examined := (drainEvents t.events).2
      presented := some c4.pixel
      sleptNs := some nanosPerFrame
      effects := [Effect.clear c.drawColor, Effect.setDrawColor background,
        Effect.clear background, Effect.setDrawColor foreground,
        Effect.fillRect fillRectangle foreground t.fillOk,
        Effect.present, Effect.sleep nanosPerFrame] }

/-- A run of the `'running` loop over a finite schedule of tick inputs: each
tick is processed from the canvas state the previous one left; a tick that
broke the loop is the last one.  (A schedule that runs out merely means we
observe the still-running loop for finitely many ticks.) -/
def runLoop (c : Canvas) : List TickInput → List TickResult
  | [] => []
  | t :: ts =>
    if (runTick c t).terminated then [runTick c t]
    else runTick c t :: runLoop (runTick c t).canvas ts

/-- The pixel contents produced by the render phase: background everywhere,
with the fixed rectangle in the foreground color when the fill succeeded. -/
def frameAfterRender (ok : Bool) : Int → Int → Color :=
  fun px py => if ok && fillRectangle.contains px py then foreground else background

/-- The frame every successfully rendered iteration presents: the canvas
cleared to `RGB(200,200,255)` with the `RGB(255,0,0)` rectangle at
`(100, 100, 200, 150)`. -/
def renderedFrame : Int → Int → Color :=
  fun px py => if fillRectangle.contains px py then foreground else background

/-- The results of the five fallible initialization steps of `main`
(lines 10-19), as the environment resolves them: `sdl2::init()`,
`sdl_context.video()`, the window `build()`, `into_canvas().build()`, and
`sdl_context.event_pump()`.  Each is `Except.error` with a diagnostic when
the underlying platform call fails. -/
structure Platform where
  sdlInit : Except String Unit
  video : Except String Unit
  windowBuild : Except String Unit
  canvasBuild : Except String Unit
  eventPump : Except String Unit

/-- The initialization prefix of `main` (lines 10-19): each step is
`unwrap`ped in order, so the first failure panics with its diagnostic and
nothing after it runs. -/
def initSteps (p : Platform) : Except String Unit :=
  match p.sdlInit with
  | Except.error msg => Except.error msg
  | Except.ok _ =>
  match p.video with
  | Except.error msg => Except.error msg
  | Except.ok _ =>
  match p.windowBuild with
  | Except.error msg => Except.error msg
  | Except.ok _ =>
  match p.canvasBuild with
  | Except.error msg => Except.error msg
  | Except.ok _ =>
  match p.eventPump with
  | Except.error msg => Except.error msg
  | Except.ok _ => Except.ok ()

/-- The whole of `main`: run initialization; on any failure the process
panics (`Except.error` carries the diagnostic) and the loop is never
entered; otherwise run the loop from the initial canvas state over the
environment's tick schedule. -/
def mainProgram (p : Platform) (c : Canvas) (ts : List TickInput) :
    Except String (List TickResult) :=
  match initSteps p with
  | Except.error msg => Except.error msg
  | Except.ok _ => Except.ok (runLoop c ts)

/-- The parameters of a window-creation request, as accumulated by
`video_subsystem.window(..)` and its builder methods. -/
structure WindowBuilder where
  title : String
  width : Nat
  height : Nat
  centered : Bool
deriving DecidableEq, Repr

/-- `video_subsystem.window(title, width, height)`: a builder that is not
centered until asked to be. -/
def windowBuilder (title : String) (width height : Nat) : WindowBuilder :=
  ⟨title, width, height, false⟩

/-- `.position_centered()` (line 14). -/
def WindowBuilder.position_centered (b : WindowBuilder) : WindowBuilder :=
  { b with centered := true }

/-- The window request `main` issues (lines 13-16), parametrized by the
ambient command-line arguments and environment, neither of which the source
reads anywhere. -/
def mainWindowRequest (_args : List String) (_env : List (String × String)) :
    WindowBuilder :=
  (windowBuilder "SuckaBunch" 1280 720).position_centered

/-- The per-tick data an observer of the program can see: whether the loop
ended, which events were consumed, the presented frame, and the sleep.  The
internal canvas state and the effect trace are not part of it. -/
structure Observation where
  terminated : Bool
  examined : List Event
  presented : Option (Int → Int → Color)
  sleptNs : Option Nat

/-- Project a tick result to its observable part. -/
def TickResult.observe (r : TickResult) : Observation :=
  ⟨r.terminated, r.examined, r.presented, r.sleptNs⟩

/-- The loop iteration with the pre-drain `canvas.clear()` (line 22) removed,
everything else verbatim as in `runTick`. -/
def runTickNoPreClear (c : Canvas) (t : TickInput) : TickResult :=
  if (drainEvents t.events).1 then
    { canvas := c
      terminated := true
      examined := (drainEvents t.events).2
      presented := none
      sleptNs := none
      effects := [] }
  else
    let c4 := ((c.setDrawColor background).clear.setDrawColor foreground).fillRect
      fillRectangle t.fillOk
    { canvas := c4
      terminated := false
      examined := (drainEvents t.events).2
      presented := some c4.pixel
      sleptNs := some nanosPerFrame
      effects := [Effect.setDrawColor background,
        Effect.clear background, Effect.setDrawColor foreground,
        Effect.fillRect fillRectangle foreground t.fillOk,
        Effect.present, Effect.sleep nanosPerFrame] }

/-- The loop built on the clear-free iteration. -/
def runLoopNoPreClear (c : Canvas) : List TickInput → List TickResult
  | [] => []
  | t :: ts =>
    if (runTickNoPreClear c t).terminated then [runTickNoPreClear c t]
    else runTickNoPreClear c t :: runLoopNoPreClear (runTickNoPreClear c t).canvas ts

/-- A canvas in SDL's initial configuration: draw color black, pixels black. -/
def blackCanvas : Canvas :=
  ⟨Color.RGB 0 0 0, fun _ _ => Color.RGB 0 0 0⟩

/-! ### Helper lemmas about the drain and the tick -/

theorem drainEvents_fst (es : List Event) :
    (drainEvents es).1 = es.any isTerminating := by
  induction es with
  | nil => rfl
  | cons e es ih =>
    cases h : isTerminating e with
    | true => simp [drainEvents, h]
    | false => simp [drainEvents, h, ih]

theorem drainEvents_append (pre : List Event) (e : Event) (post : List Event)
    (hpre : ∀ x ∈ pre, isTerminating x = false) (he : isTerminating e = true) :
    drainEvents (pre ++ e :: post) = (true, pre ++ [e]) := by
  induction pre with
  | nil => simp [drainEvents, he]
  | cons a pre ih =>
    have ha : isTerminating a = false := hpre a (List.mem_cons_self a pre)
    have hrest := ih fun x hx => hpre x (List.mem_cons_of_mem a hx)
    simp [drainEvents, ha, hrest]

theorem Canvas.clear_eq (c : Canvas) :
    c.clear = Canvas.mk c.drawColor (fun _ _ => c.drawColor) := rfl

theorem renderCanvas_eq (c : Canvas) (ok : Bool) :
    ((c.setDrawColor background).clear.setDrawColor foreground).fillRect
      fillRectangle ok = Canvas.mk foreground (frameAfterRender ok) := by
  cases ok with
  | true =>
    simp only [Canvas.setDrawColor, Canvas.clear, Canvas.fillRect, if_true]
    congr 1
  | false =>
    simp only [Canvas.setDrawColor, Canvas.clear, Canvas.fillRect, Bool.false_eq_true,
      if_false]
    congr 1

theorem runTick_eq_break (c : Canvas) (t : TickInput)
    (h : (drainEvents t.events).1 = true) :
    runTick c t = ⟨c.clear, true, (drainEvents t.events).2, none, none,
      [Effect.clear c.drawColor]⟩ := by
  simp [runTick, h]

theorem runTick_eq_render (c : Canvas) (t : TickInput)
    (h : (drainEvents t.events).1 = false) :
    runTick c t = ⟨Canvas.mk foreground (frameAfterRender t.fillOk), false,
      (drainEvents t.events).2, some (frameAfterRender t.fillOk), some nanosPerFrame,
      [Effect.clear c.drawColor, Effect.setDrawColor background, Effect.clear background,
       Effect.setDrawColor foreground, Effect.fillRect fillRectangle foreground t.fillOk,
       Effect.present, Effect.sleep nanosPerFrame]⟩ := by
  have hc := renderCanvas_eq c.clear t.fillOk
  simp [runTick, h, hc]

theorem runTick_terminated_eq (c : Canvas) (t : TickInput) :
    (runTick c t).terminated = (drainEvents t.events).1 := by
  cases hd : (drainEvents t.events).1 with
  | true => rw [runTick_eq_break c t hd]
  | false => rw [runTick_eq_render c t hd]

theorem runTick_presented_isSome (c : Canvas) (t : TickInput) :
    (runTick c t).presented.isSome = !(drainEvents t.events).1 := by
  cases hd : (drainEvents t.events).1 with
  | true =>
    rw [runTick_eq_break c t hd]
    rfl
  | false =>
    rw [runTick_eq_render c t hd]
    rfl

theorem runLoop_nil (c : Canvas) : runLoop c [] = [] := rfl

theorem runLoop_cons (c : Canvas) (t : TickInput) (ts : List TickInput) :
    runLoop c (t :: ts) =
      if (runTick c t).terminated then [runTick c t]
      else runTick c t :: runLoop (runTick c t).canvas ts := rfl

theorem runLoopNoPreClear_cons (c : Canvas) (t : TickInput) (ts : List TickInput) :
    runLoopNoPreClear c (t :: ts) =
      if (runTickNoPreClear c t).terminated then [runTickNoPreClear c t]
      else runTickNoPreClear c t :: runLoopNoPreClear (runTickNoPreClear c t).canvas ts := rfl

theorem runTickNoPreClear_eq_break (c : Canvas) (t : TickInput)
    (h : (drainEvents t.events).1 = true) :
    runTickNoPreClear c t = ⟨c, true, (drainEvents t.events).2, none, none, []⟩ := by
  simp [runTickNoPreClear, h]

theorem runTickNoPreClear_eq_render (c : Canvas) (t : TickInput)
    (h : (drainEvents t.events).1 = false) :
    runTickNoPreClear c t = ⟨Canvas.mk foreground (frameAfterRender t.fillOk), false,
      (drainEvents t.events).2, some (frameAfterRender t.fillOk), some nanosPerFrame,
      [Effect.setDrawColor background, Effect.clear background,
       Effect.setDrawColor foreground, Effect.fillRect fillRectangle foreground t.fillOk,
       Effect.present, Effect.sleep nanosPerFrame]⟩ := by
  have hc := renderCanvas_eq c t.fillOk
  simp [runTickNoPreClear, h, hc]

theorem runTick_drawColor_congr (c c2 : Canvas) (t : TickInput)
    (h : c.drawColor = c2.drawColor) : runTick c t = runTick c2 t := by
  cases hd : (drainEvents t.events).1 with
  | true =>
    rw [runTick_eq_break c t hd, runTick_eq_break c2 t hd, Canvas.clear_eq,
      Canvas.clear_eq, h]
  | false =>
    rw [runTick_eq_render c t hd, runTick_eq_render c2 t hd, h]

theorem runLoop_drawColor_congr (ts : List TickInput) (c c2 : Canvas)
    (h : c.drawColor = c2.drawColor) : runLoop c ts = runLoop c2 ts := by
  cases ts with
  | nil => rfl
  | cons t ts => rw [runLoop_cons, runLoop_cons, runTick_drawColor_congr c c2 t h]

theorem runLoop_any_terminated (c : Canvas) (ts : List TickInput) :
    (runLoop c ts).any (fun r => r.terminated) =
      ts.any fun u => u.events.any isTerminating := by
  induction ts generalizing c with
  | nil => rfl
  | cons t ts ih =>
    rw [runLoop_cons]
    have hT : (runTick c t).terminated = t.events.any isTerminating := by
      rw [runTick_terminated_eq, drainEvents_fst]
    cases h : t.events.any isTerminating with
    | true =>
      have hT2 : (runTick c t).terminated = true := hT.trans h
      simp [hT2, h]
    | false =>
      have hT2 : (runTick c t).terminated = false := hT.trans h
      simp [hT2, h, ih]

theorem initSteps_isOk (p : Platform) :
    (initSteps p).isOk = (p.sdlInit.isOk && p.video.isOk && p.windowBuild.isOk &&
      p.canvasBuild.isOk && p.eventPump.isOk) := by
  rcases p with ⟨s, v, w, cb, ep⟩
  cases s <;> cases v <;> cases w <;> cases cb <;> cases ep <;> rfl

theorem mainProgram_isOk (p : Platform) (c : Canvas) (ts : List TickInput) :
    (mainProgram p c ts).isOk = (initSteps p).isOk := by
  cases h : initSteps p with
  | error msg => simp [mainProgram, h, Except.isOk, Except.toBool]
  | ok u => simp [mainProgram, h, Except.isOk, Except.toBool]

theorem runLoop_shape (ts : List TickInput) (c : Canvas) (i : Nat) (r : TickResult)
    (hr : (runLoop c ts).get? i = some r) : ∃ c2 t, r = runTick c2 t := by
  induction ts generalizing c i with
  | nil => simp [runLoop] at hr
  | cons t ts ih =>
    rw [runLoop_cons] at hr
    cases hT : (runTick c t).terminated with
    | true =>
      rw [if_pos hT] at hr
      cases i with
      | zero =>
        refine ⟨c, t, ?_⟩
        simpa using hr.symm
      | succ j => simp at hr
    | false =>
      rw [if_neg (by simp [hT])] at hr
      cases i with
      | zero =>
        refine ⟨c, t, ?_⟩
        simpa using hr.symm
      | succ j => exact ih (runTick c t).canvas j (by simpa using hr)

/-! ### Claims -/

/-- Claim C1: the main loop terminates if and only if the drained event
sequence contains a `Quit` event or an `Escape` key-down event: a tick whose
polled events include such an event breaks the loop, a tick whose events
contain neither does not terminate and proceeds to render (it presents a
frame), and over a whole run the loop breaks exactly when some tick's events
contain such an event. -/
theorem loop_breaks_iff_quit_or_escape (c : Canvas) (t : TickInput)
    (ts : List TickInput) :
    ((runTick c t).terminated = t.events.any isTerminating)
    ∧ ((runTick c t).presented.isSome = !t.events.any isTerminating)
    ∧ ((runLoop c ts).any (fun r => r.terminated)
        = ts.any fun u => u.events.any isTerminating) := by
  refine ⟨?_, ?_, runLoop_any_terminated c ts⟩
  · rw [runTick_terminated_eq, drainEvents_fst]
  · rw [runTick_presented_isSome, drainEvents_fst]

/-- Claim C2: when a `Quit` or `Escape` key-down event sits at position `i`
of a tick's event queue and nothing before it terminates, the tick signals
termination and the events it examined are exactly the ones up to and
including position `i` — the queued events after it are not examined. -/
theorem drain_short_circuits (c : Canvas) (fillOk : Bool) (pre : List Event)
    (e : Event) (post : List Event)
    (hpre : ∀ x ∈ pre, isTerminating x = false) (he : isTerminating e = true) :
    (runTick c ⟨pre ++ e :: post, fillOk⟩).terminated = true
    ∧ (runTick c ⟨pre ++ e :: post, fillOk⟩).examined = pre ++ [e] := by
  have hd := drainEvents_append pre e post hpre he
  have h1 : (drainEvents (pre ++ e :: post)).1 = true := by rw [hd]
  rw [runTick_eq_break c ⟨pre ++ e :: post, fillOk⟩ h1]
  refine ⟨rfl, ?_⟩
  show (drainEvents (pre ++ e :: post)).2 = pre ++ [e]
  rw [hd]

/-- Witness for C2 at a concrete queue: one harmless event, then `Quit`,
then a further queued event that is not examined. -/
theorem drain_short_circuits_witness :
    (runTick blackCanvas ⟨[Event.Other] ++ Event.Quit 0 :: [Event.KeyDown 1 none],
        true⟩).terminated = true
    ∧ (runTick blackCanvas ⟨[Event.Other] ++ Event.Quit 0 :: [Event.KeyDown 1 none],
        true⟩).examined = [Event.Other] ++ [Event.Quit 0] :=
  drain_short_circuits blackCanvas true [Event.Other] (Event.Quit 0)
    [Event.KeyDown 1 none] (by decide) (by decide)

/-- Claim C3: every iteration that reaches the render phase with the fill
succeeding presents the same frame — the canvas cleared to the background
`RGB(200,200,255)` with the `RGB(255,0,0)` rectangle at `(100,100,200,150)`
— regardless of the starting canvas state and the (non-terminating) events;
in particular frame `N` and frame `N+1` are pixel-identical. -/
theorem rendered_frame_constant (c c2 : Canvas) (t t2 : TickInput)
    (h : t.events.any isTerminating = false) (hok : t.fillOk = true)
    (h2 : t2.events.any isTerminating = false) (hok2 : t2.fillOk = true) :
    (runTick c t).presented = some renderedFrame
    ∧ (runTick c t).presented = (runTick c2 t2).presented := by
  have e1 := runTick_eq_render c t (by rw [drainEvents_fst]; exact h)
  have e2 := runTick_eq_render c2 t2 (by rw [drainEvents_fst]; exact h2)
  rw [e1, e2]
  refine ⟨?_, ?_⟩
  · show some (frameAfterRender t.fillOk) = some renderedFrame
    rw [hok]
    rfl
  · show some (frameAfterRender t.fillOk) = some (frameAfterRender t2.fillOk)
    rw [hok, hok2]

/-- Witness for C3: two event-free ticks from different canvas states
present the identical fixed frame. -/
theorem rendered_frame_constant_witness :
    (runTick blackCanvas ⟨[], true⟩).presented = some renderedFrame
    ∧ (runTick blackCanvas ⟨[], true⟩).presented
        = (runTick (Canvas.mk foreground fun _ _ => foreground)
            ⟨[Event.Other], true⟩).presented :=
  rendered_frame_constant blackCanvas (Canvas.mk foreground fun _ _ => foreground)
    ⟨[], true⟩ ⟨[Event.Other], true⟩ (by decide) (by decide) (by decide) (by decide)

/-- Claim C4: a failed rectangle fill is discarded silently: the tick still
does not terminate, still presents a frame (the background without the
rectangle) and still sleeps, and the rest of the run is identical to what it
would have been had the fill succeeded. -/
theorem fill_failure_ignored (c : Canvas) (events : List Event)
    (ts : List TickInput) (h : events.any isTerminating = false) :
    (runTick c ⟨events, false⟩).terminated = false
    ∧ (runTick c ⟨events, false⟩).presented = some (frameAfterRender false)
    ∧ (runTick c ⟨events, false⟩).sleptNs = some nanosPerFrame
    ∧ runLoop (runTick c ⟨events, false⟩).canvas ts
        = runLoop (runTick c ⟨events, true⟩).canvas ts := by
  have hd : (drainEvents events).1 = false := by rw [drainEvents_fst]; exact h
  have e1 := runTick_eq_render c ⟨events, false⟩ hd
  have e2 := runTick_eq_render c ⟨events, true⟩ hd
  rw [e1, e2]
  exact ⟨rfl, rfl, rfl, runLoop_drawColor_congr ts _ _ rfl⟩

/-- Witness for C4 at an event-free tick followed by one further tick. -/
theorem fill_failure_ignored_witness :
    (runTick blackCanvas ⟨[], false⟩).terminated = false
    ∧ (runTick blackCanvas ⟨[], false⟩).presented = some (frameAfterRender false)
    ∧ (runTick blackCanvas ⟨[], false⟩).sleptNs = some nanosPerFrame
    ∧ runLoop (runTick blackCanvas ⟨[], false⟩).canvas [⟨[], true⟩]
        = runLoop (runTick blackCanvas ⟨[], true⟩).canvas [⟨[], true⟩] :=
  fill_failure_ignored blackCanvas [] [⟨[], true⟩] (by decide)

/-- Claim C5: every fallible initialization step — `sdl2::init()`, the video
subsystem, the window build, the canvas build, the event pump — is fatal on
failure: the program reaches the loop exactly when all five succeed, on
success it runs exactly the loop, and on any failure it panics with a
diagnostic and the loop is never entered. -/
theorem init_failure_fatal (p : Platform) (c : Canvas) (ts : List TickInput) :
    ((mainProgram p c ts).isOk =
      (p.sdlInit.isOk && p.video.isOk && p.windowBuild.isOk &&
        p.canvasBuild.isOk && p.eventPump.isOk))
    ∧ (∀ rs, mainProgram p c ts = Except.ok rs → rs = runLoop c ts)
    ∧ ((mainProgram p c ts).isOk = false →
        ∃ msg, mainProgram p c ts = Except.error msg) := by
  refine ⟨?_, ?_, ?_⟩
  · rw [mainProgram_isOk, initSteps_isOk]
  · intro rs hrs
    cases h : initSteps p with
    | error msg =>
      simp only [mainProgram, h] at hrs
      exact Except.noConfusion hrs
    | ok u =>
      simp only [mainProgram, h] at hrs
      injection hrs with h2
      exact h2.symm
  · intro hno
    cases h : initSteps p with
    | error msg =>
      refine ⟨msg, ?_⟩
      simp [mainProgram, h]
    | ok u =>
      simp [mainProgram, h, Except.isOk, Except.toBool] at hno

/-- Claim C6: every loop iteration that is not the terminating one ends by
sleeping for `1_000_000_000 / 60` nanoseconds (16,666,666 ns, one sixtieth of
a second up to integer division), and its effect trace ends with the present
followed by that sleep — so consecutive presents are separated by the sleep
and the loop does not spin unthrottled. -/
theorem sleep_paces_every_iteration (c : Canvas) (ts : List TickInput) (i : Nat)
    (r : TickResult) (hr : (runLoop c ts).get? i = some r)
    (hterm : r.terminated = false) :
    r.sleptNs = some nanosPerFrame
    ∧ nanosPerFrame = 16666666
    ∧ ∃ pre, r.effects = pre ++ [Effect.present, Effect.sleep nanosPerFrame] := by
  obtain ⟨c2, t, rfl⟩ := runLoop_shape ts c i r hr
  have hd : (drainEvents t.events).1 = false := by
    rw [← runTick_terminated_eq c2 t]
    exact hterm
  rw [runTick_eq_render c2 t hd]
  exact ⟨rfl, by decide, ⟨[Effect.clear c2.drawColor, Effect.setDrawColor background,
    Effect.clear background, Effect.setDrawColor foreground,
    Effect.fillRect fillRectangle foreground t.fillOk], rfl⟩⟩

/-- Witness for C6: the single event-free tick of a concrete run sleeps for
the fixed duration. -/
theorem sleep_paces_every_iteration_witness :
    (runTick blackCanvas ⟨[], true⟩).sleptNs = some nanosPerFrame
    ∧ nanosPerFrame = 16666666
    ∧ ∃ pre, (runTick blackCanvas ⟨[], true⟩).effects
        = pre ++ [Effect.present, Effect.sleep nanosPerFrame] :=
  sleep_paces_every_iteration blackCanvas [⟨[], true⟩] 0
    (runTick blackCanvas ⟨[], true⟩) rfl rfl

/-- Claim C7: the window request is the same on every run — title
`"SuckaBunch"`, width 1280, height 720, centered — independently of the
process's command-line arguments and environment, which `main` never reads. -/
theorem window_request_fixed (args args2 : List String)
    (env env2 : List (String × String)) :
    mainWindowRequest args env = WindowBuilder.mk "SuckaBunch" 1280 720 true
    ∧ mainWindowRequest args env = mainWindowRequest args2 env2 :=
  ⟨rfl, rfl⟩

/-- Claim C8: once a tick signals termination it is the last tick of the run
(no later iteration occurs), and that tick presents no frame, performs no
sleep, and its whole effect trace is the single pre-drain clear — no
background clear, no rectangle fill, no present happen after the break. -/
theorem no_frame_after_termination (c : Canvas) (ts : List TickInput) (i : Nat)
    (r : TickResult) (hr : (runLoop c ts).get? i = some r)
    (hterm : r.terminated = true) :
    i + 1 = (runLoop c ts).length
    ∧ r.presented = none
    ∧ r.sleptNs = none
    ∧ ∃ col, r.effects = [Effect.clear col] := by
  induction ts generalizing c i with
  | nil => simp [runLoop] at hr
  | cons t ts ih =>
    cases hT : (runTick c t).terminated with
    | true =>
      have hL : runLoop c (t :: ts) = [runTick c t] := by
        rw [runLoop_cons, if_pos hT]
      rw [hL] at hr ⊢
      cases i with
      | zero =>
        have hrr : runTick c t = r := by simpa using hr
        subst hrr
        have hd : (drainEvents t.events).1 = true := by
          rw [← runTick_terminated_eq c t]
          exact hT
        rw [runTick_eq_break c t hd]
        exact ⟨rfl, rfl, rfl, ⟨c.drawColor, rfl⟩⟩
      | succ j => simp at hr
    | false =>
      have hL : runLoop c (t :: ts) = runTick c t :: runLoop (runTick c t).canvas ts := by
        rw [runLoop_cons, if_neg]
        simp [hT]
      rw [hL] at hr ⊢
      cases i with
      | zero =>
        have hrr : runTick c t = r := by simpa using hr
        subst hrr
        rw [hT] at hterm
        simp at hterm
      | succ j =>
        have h2 := ih (runTick c t).canvas j (by simpa using hr)
        refine ⟨?_, h2.2⟩
        rw [List.length_cons, ← h2.1]

/-- Witness for C8: a run whose first tick receives a `Quit` event ends at
that tick, with nothing presented. -/
theorem no_frame_after_termination_witness :
    0 + 1 = (runLoop blackCanvas [⟨[Event.Quit 0], true⟩]).length
    ∧ (runTick blackCanvas ⟨[Event.Quit 0], true⟩).presented = none
    ∧ (runTick blackCanvas ⟨[Event.Quit 0], true⟩).sleptNs = none
    ∧ ∃ col, (runTick blackCanvas ⟨[Event.Quit 0], true⟩).effects
        = [Effect.clear col] :=
  no_frame_after_termination blackCanvas [⟨[Event.Quit 0], true⟩] 0
    (runTick blackCanvas ⟨[Event.Quit 0], true⟩) rfl rfl

/-- Claim C9: the pre-drain clear is observably redundant: the loop with the
first `canvas.clear()` removed produces, tick for tick, the same observable
behavior (termination, events consumed, presented frames, sleeps) as the
loop as written, from any starting canvas. -/
theorem pre_drain_clear_redundant (c : Canvas) (ts : List TickInput) :
    (runLoop c ts).map TickResult.observe
      = (runLoopNoPreClear c ts).map TickResult.observe := by
  induction ts generalizing c with
  | nil => rfl
  | cons t ts ih =>
    rw [runLoop_cons, runLoopNoPreClear_cons]
    cases hd : (drainEvents t.events).1 with
    | true =>
      rw [runTick_eq_break c t hd, runTickNoPreClear_eq_break c t hd]
      rfl
    | false =>
      rw [runTick_eq_render c t hd, runTickNoPreClear_eq_render c t hd]
      simp [TickResult.observe, ih]

theorem runLoop_first_effect (ts : List TickInput) (c : Canvas) (i : Nat)
    (r : TickResult) (hr : (runLoop c ts).get? i = some r) :
    r.effects.head? = some (Effect.clear (if i = 0 then c.drawColor else foreground)) := by
  induction ts generalizing c i with
  | nil => simp [runLoop] at hr
  | cons t ts ih =>
    cases hT : (runTick c t).terminated with
    | true =>
      have hL : runLoop c (t :: ts) = [runTick c t] := by
        rw [runLoop_cons, if_pos hT]
      rw [hL] at hr
      cases i with
      | zero =>
        have hrr : runTick c t = r := by simpa using hr
        subst hrr
        have hd : (drainEvents t.events).1 = true := by
          rw [← runTick_terminated_eq c t]
          exact hT
        rw [runTick_eq_break c t hd]
        rfl
      | succ j => simp at hr
    | false =>
      have hL : runLoop c (t :: ts) = runTick c t :: runLoop (runTick c t).canvas ts := by
        rw [runLoop_cons, if_neg]
        simp [hT]
      rw [hL] at hr
      have hd : (drainEvents t.events).1 = false := by
        rw [← runTick_terminated_eq c t]
        exact hT
      cases i with
      | zero =>
        have hrr : runTick c t = r := by simpa using hr
        subst hrr
        rw [runTick_eq_render c t hd]
        rfl
      | succ j =>
        have h2 := ih (runTick c t).canvas j (by simpa using hr)
        have hcv : (runTick c t).canvas.drawColor = foreground := by
          rw [runTick_eq_render c t hd]
        rw [hcv] at h2
        rw [h2]
        simp

/-- Claim C10: on every iteration after the first, the draw color at the top
of the loop is still the foreground `RGB(255,0,0)` left by the previous
iteration's fill, so the pre-drain clear fills the whole canvas with red —
not the background color, from which it differs — and this is never visible:
any frame the tick presents shows the background color everywhere outside
the fixed rectangle, because the later background clear overwrites the red
before present. -/
theorem leftover_red_pre_clear (c : Canvas) (ts : List TickInput) (i : Nat)
    (r : TickResult) (hr : (runLoop c ts).get? i = some r) (hi : 0 < i) :
    r.effects.head? = some (Effect.clear foreground)
    ∧ foreground ≠ background
    ∧ ∀ f, r.presented = some f → ∀ px py, fillRectangle.contains px py = false →
        f px py = background := by
  have h1 := runLoop_first_effect ts c i r hr
  have hi0 : ¬ i = 0 := Nat.pos_iff_ne_zero.mp hi
  rw [if_neg hi0] at h1
  refine ⟨h1, by decide, ?_⟩
  obtain ⟨c2, t, rfl⟩ := runLoop_shape ts c i r hr
  intro f hf px py hcont
  cases hd : (drainEvents t.events).1 with
  | true =>
    rw [runTick_eq_break c2 t hd] at hf
    exact absurd hf (by simp)
  | false =>
    rw [runTick_eq_render c2 t hd] at hf
    have hf2 : frameAfterRender t.fillOk = f := by simpa using hf
    subst hf2
    simp [frameAfterRender, hcont]

/-- Witness for C10: the second tick of a concrete two-tick run opens with a
clear in the foreground color, and its presented frame is background outside
the rectangle. -/
theorem leftover_red_pre_clear_witness :
    (runTick (runTick blackCanvas ⟨[], true⟩).canvas ⟨[], true⟩).effects.head?
        = some (Effect.clear foreground)
    ∧ foreground ≠ background
    ∧ ∀ f, (runTick (runTick blackCanvas ⟨[], true⟩).canvas ⟨[], true⟩).presented
          = some f →
        ∀ px py, fillRectangle.contains px py = false → f px py = background :=
  leftover_red_pre_clear blackCanvas [⟨[], true⟩, ⟨[], true⟩] 1
    (runTick (runTick blackCanvas ⟨[], true⟩).canvas ⟨[], true⟩) rfl (by decide)

end Suckabunch
